import Mathlib

/-!
# Verification of the CLIProxyAPI routing / quota core

Shallow embedding of the model-routing package (`internal/registry/routing`)
and the quota state machine (`sdk/cliproxy/auth/quota.go`) of CLIProxyAPI,
together with theorems settling the specification claims about them.

Conventions of the embedding:
* Go strings are Lean `String`s; the byte-level operations of the `strings`
  package (`Contains`, `HasPrefix`, `Split`, ...) are modelled on the
  underlying `List Char`, which agrees with Go's byte-level semantics on
  the UTF-8 strings involved (UTF-8 substring occurrences are
  codepoint-aligned).  `strings.ToLower` / `TrimSpace` are modelled on the
  ASCII range, which covers every string these claims mention.
* Go `time.Time` is an `Int` (nanoseconds); the zero `time.Time` is `0`,
  `t.After(u)` is `u < t`, `t.Add(d)` is `t + d`.
* Go nil pointers are `Option.none`; a Go method on a possibly-nil
  receiver becomes a function on `Option _`.
-/

namespace CLIProxy

/-! ## String helpers (models of the Go `strings` functions used) -/

/-- Model of Go `unicode.ToLower` restricted to ASCII, as used by
`strings.ToLower`: uppercase latin letters are shifted by 32. -/
def charLower (c : Char) : Char :=
  if 65 ≤ c.toNat ∧ c.toNat ≤ 90 then Char.ofNat (c.toNat + 32) else c

/-- Model of Go `strings.ToLower` (ASCII range). -/
def strLower (s : String) : String := ⟨s.data.map charLower⟩

/-- Model of Go `strings.TrimSpace` (ASCII whitespace). -/
def strTrim (s : String) : String :=
  ⟨((s.data.dropWhile Char.isWhitespace).reverse.dropWhile Char.isWhitespace).reverse⟩

/-- Model of Go `strings.Contains s sub`. -/
def strContains (s sub : String) : Bool := decide (List.IsInfix sub.data s.data)

/-- Model of Go `strings.Split s sep` for a single-character separator. -/
def splitOnChar (sep : Char) : List Char → List (List Char)
  | [] => [[]]
  | c :: cs =>
    if c = sep then [] :: splitOnChar sep cs
    else
      match splitOnChar sep cs with
      | [] => [[c]]
      | h :: t => (c :: h) :: t

/-- Model of Go `strings.Join parts "-"`. -/
def joinDash (parts : List (List Char)) : List Char :=
  List.intercalate ['-'] parts

/-! ## Base-name extraction (`extractBaseModelName`, routing.go) -/

/-- `isDateLikeSuffix` from the source: the segment is all digits and has
length 4, 6 or 8. -/
def isDateLikeSuffix (s : List Char) : Bool :=
  if s.length < 4 then false
  else if s.all (fun c => 48 ≤ c.toNat ∧ c.toNat ≤ 57) then
    decide (s.length = 4) || decide (s.length = 8) || decide (s.length = 6)
  else false

/-- `isVersionSuffix` from the source: after lowercasing, the segment is one
of `latest|preview|beta|alpha`, or `v` followed only by digits and dots. -/
def isVersionSuffix (s : List Char) : Bool :=
  let s := s.map charLower
  if s = "latest".data ∨ s = "preview".data ∨ s = "beta".data ∨ s = "alpha".data then true
  else if 2 ≤ s.length ∧ s.headD ' ' = 'v' then
    (s.drop 1).all (fun c => c = '.' ∨ (48 ≤ c.toNat ∧ c.toNat ≤ 57))
  else false

/-- One segment is strippable when it is date-like or version-like. -/
def strippableSegment (s : List Char) : Bool := isDateLikeSuffix s || isVersionSuffix s

/-- The source's backwards scan: `cutIndex` starts at `parts.length` and
moves to `i` while `parts[i]` is strippable, stopping at the first
non-strippable segment from the end. -/
def cutIndexOf (parts : List (List Char)) : Nat :=
  parts.length - (parts.reverse.takeWhile strippableSegment).length

/-- `extractBaseModelName` from the source: trim, split on `-`, drop the
trailing run of strippable segments, but never drop everything. -/
def extractBaseModelName (modelName : String) : String :=
  let modelName := strTrim modelName
  if modelName = "" then ""
  else
    let parts := splitOnChar '-' modelName.data
    if parts.length ≤ 1 then modelName
    else
      let cutIndex := cutIndexOf parts
      if cutIndex = 0 then modelName
      else ⟨joinDash (parts.take cutIndex)⟩

/-! ## Wildcard matcher (`matchWildcard`, routing.go) -/

/-- Model of `text = text[idx+len(part):]` after `idx := strings.Index(text,
part)`: the remaining text after the first occurrence of `part`, `none` when
`part` does not occur. -/
def dropAfterOccur (part : List Char) : List Char → Option (List Char)
  | [] => if part.isPrefixOf ([] : List Char) then some [] else none
  | c :: cs =>
    if part.isPrefixOf (c :: cs) then some ((c :: cs).drop part.length)
    else dropAfterOccur part cs

/-- The loop over the interior pattern segments: each non-empty segment must
occur, in order, in the remaining text. -/
def matchMiddle : List (List Char) → List Char → Bool
  | [], _ => true
  | part :: rest, t =>
    if part = [] then matchMiddle rest t
    else
      match dropAfterOccur part t with
      | none => false
      | some t' => matchMiddle rest t'

/-- `matchWildcard` from the source: case-insensitive glob with `*` as the
only wildcard; split the pattern on `*`, check the first segment as a
prefix, the last as a suffix, and the interior segments by first-occurrence
scanning. -/
def matchWildcard (pattern text : String) : Bool :=
  let p := (strLower pattern).data
  let t := (strLower text).data
  if p = ['*'] then true
  else if p = [] then t.isEmpty
  else if ¬ p.contains '*' then p = t
  else
    let parts := splitOnChar '*' p
    if parts = [] then true
    else
      let first := parts.headD []
      if first ≠ [] ∧ ¬ first.isPrefixOf t then false
      else
        let t1 := t.drop first.length
        let lastPart := parts.getLastD []
        if lastPart ≠ [] ∧ ¬ lastPart.isSuffixOf t1 then false
        else
          let t2 := if lastPart ≠ [] then t1.take (t1.length - lastPart.length) else t1
          matchMiddle ((parts.drop 1).dropLast) t2

/-! ## Quota state machine (sdk/cliproxy/auth/quota.go)

`time.Time` is an `Int` (nanoseconds); `0` is the zero `time.Time`. -/

/-- One nanosecond-denominated second, as in Go's `time.Second`. -/
def second : Int := 1000000000

/-- One minute (`time.Minute`). -/
def minute : Int := 60 * second

/-- `QuotaInfo` from quota.go: a transient provider quota snapshot.
`total`/`remaining` use `-1` for "unknown". -/
structure QuotaInfo where
  total : Int
  remaining : Int
  resetAt : Int
  source : String
  fetchedAt : Int
  deriving DecidableEq, Repr

/-- The zero `QuotaInfo{}` returned by `QuotaCache.Get` on a miss. -/
def QuotaInfo.empty : QuotaInfo :=
  { total := 0, remaining := 0, resetAt := 0, source := "", fetchedAt := 0 }

/-- Modelled from the spec: the `QuotaState` record (its Go definition is
outside the provided sources; fields are taken from the spec's data model,
which quota.go's functions read and write field by field). -/
structure QuotaState where
  total : Int
  remaining : Int
  resetAt : Int
  nextRecoverAt : Int
  exceeded : Bool
  reason : String
  backoffLevel : Int
  updatedAt : Int
  source : String
  deriving DecidableEq, Repr

/-- Modelled from the spec: `nextQuotaCooldown` (not in the provided
sources).  The spec requires an increasing, capped cooldown schedule keyed
by the backoff level, advancing to the next level; every cooldown it
produces is positive. -/
def nextQuotaCooldown (backoffLevel : Int) : Int × Int :=
  let schedule : List Int :=
    [30 * minute, 60 * minute, 120 * minute, 240 * minute, 480 * minute]
  (schedule.getD backoffLevel.toNat (480 * minute), backoffLevel + 1)

/-- The body of `IsQuotaExhausted` for a non-nil state. -/
def isQuotaExhaustedCore (q : QuotaState) (now : Int) : Bool × Int :=
  if q.exceeded then
    let resetTime := if q.resetAt = 0 then q.nextRecoverAt else q.resetAt
    if resetTime ≠ 0 ∧ now < resetTime then (true, resetTime)
    else if resetTime ≠ 0 ∧ ¬ now < resetTime then (false, 0)
    else (true, 0)
  else if q.remaining = 0 ∧ q.total > 0 then
    let resetTime := if q.resetAt = 0 then q.nextRecoverAt else q.resetAt
    if resetTime ≠ 0 ∧ now < resetTime then (true, resetTime)
    else if resetTime ≠ 0 then (false, 0)
    else (true, 0)
  else (false, 0)

/-- `IsQuotaExhausted` from quota.go (nil state reports available). -/
def IsQuotaExhausted (q : Option QuotaState) (now : Int) : Bool × Int :=
  match q with
  | none => (false, 0)
  | some q => isQuotaExhaustedCore q now

/-- The body of `UpdateQuotaFromInfo` for a non-nil state. -/
def updateQuotaFromInfoCore (q : QuotaState) (info : QuotaInfo) : QuotaState :=
  let q := { q with
    total := info.total, remaining := info.remaining, resetAt := info.resetAt,
    updatedAt := info.fetchedAt, source := info.source }
  if info.remaining = 0 ∧ info.total > 0 then
    let q := { q with exceeded := true, reason := "quota_exhausted" }
    if q.nextRecoverAt = 0 ∧ info.resetAt ≠ 0 then { q with nextRecoverAt := info.resetAt }
    else q
  else q

/-- `UpdateQuotaFromInfo` from quota.go (no-op on nil). -/
def UpdateQuotaFromInfo (q : Option QuotaState) (info : QuotaInfo) : Option QuotaState :=
  match q with
  | none => none
  | some q => some (updateQuotaFromInfoCore q info)

/-- The body of `UpdateQuotaFrom429` for a non-nil state. -/
def updateQuotaFrom429Core (q : QuotaState) (retryAfter : Option Int) (now : Int)
    (backoffLevel : Int) : QuotaState :=
  let q := { q with
    exceeded := true, reason := "quota", remaining := 0, updatedAt := now, source := "429" }
  match retryAfter with
  | some ra => { q with nextRecoverAt := now + ra, resetAt := now + ra }
  | none =>
    let cd := nextQuotaCooldown backoffLevel
    let next := if cd.1 > 0 then now + cd.1 else 0
    { q with backoffLevel := cd.2, nextRecoverAt := next, resetAt := next }

/-- `UpdateQuotaFrom429` from quota.go (no-op on nil). -/
def UpdateQuotaFrom429 (q : Option QuotaState) (retryAfter : Option Int) (now : Int)
    (backoffLevel : Int) : Option QuotaState :=
  match q with
  | none => none
  | some q => some (updateQuotaFrom429Core q retryAfter now backoffLevel)

/-- The body of `ClearQuotaState` for a non-nil state. -/
def clearQuotaStateCore (q : QuotaState) (now : Int) : QuotaState :=
  { q with
    exceeded := false, reason := "", nextRecoverAt := 0, backoffLevel := 0,
    remaining := -1, total := -1, resetAt := 0, updatedAt := now, source := "" }

/-- `ClearQuotaState` from quota.go (no-op on nil). -/
def ClearQuotaState (q : Option QuotaState) (now : Int) : Option QuotaState :=
  match q with
  | none => none
  | some q => some (clearQuotaStateCore q now)

/-! ## Quota cache (sdk/cliproxy/auth/quota.go)

The Go map `entries map[string]*quotaCacheEntry` is modelled as a function
`String → Option quotaCacheEntry`; each method's internal `time.Now()` call
is an explicit `now` parameter. -/

/-- `quotaCacheKey` from quota.go. -/
def quotaCacheKey (provider authID model : String) : String :=
  provider ++ ":" ++ authID ++ ":" ++ model

/-- `quotaCacheEntry` from quota.go. -/
structure quotaCacheEntry where
  info : QuotaInfo
  expiresAt : Int
  deriving DecidableEq, Repr

/-- `QuotaCache` from quota.go. -/
structure QuotaCache where
  entries : String → Option quotaCacheEntry
  ttl : Int

/-- `NewQuotaCache` from quota.go: a non-positive TTL defaults to 5 minutes. -/
def NewQuotaCache (ttl : Int) : QuotaCache :=
  { entries := fun _ => none, ttl := if ttl ≤ 0 then 5 * minute else ttl }

/-- `QuotaCache.Get` from quota.go: nil cache, absent key or expired entry
is a miss; the read does not modify the cache. -/
def QuotaCache.Get (c : Option QuotaCache) (provider authID model : String) (now : Int) :
    QuotaInfo × Bool :=
  match c with
  | none => (QuotaInfo.empty, false)
  | some c =>
    match c.entries (quotaCacheKey provider authID model) with
    | none => (QuotaInfo.empty, false)
    | some e => if e.expiresAt < now then (QuotaInfo.empty, false) else (e.info, true)

/-- `QuotaCache.Set` from quota.go: unconditional overwrite with expiry
`now + ttl` (no-op on nil). -/
def QuotaCache.Set (c : Option QuotaCache) (provider authID model : String) (info : QuotaInfo)
    (now : Int) : Option QuotaCache :=
  match c with
  | none => none
  | some c =>
    some { c with entries := fun k =>
      if k = quotaCacheKey provider authID model then some { info := info, expiresAt := now + c.ttl }
      else c.entries k }

/-- `QuotaCache.Invalidate` from quota.go (no-op on nil). -/
def QuotaCache.Invalidate (c : Option QuotaCache) (provider authID model : String) :
    Option QuotaCache :=
  match c with
  | none => none
  | some c =>
    some { c with entries := fun k =>
      if k = quotaCacheKey provider authID model then none else c.entries k }

/-- `QuotaCache.Cleanup` from quota.go: drop every entry whose expiry has
passed (no-op on nil). -/
def QuotaCache.Cleanup (c : Option QuotaCache) (now : Int) : Option QuotaCache :=
  match c with
  | none => none
  | some c =>
    some { c with entries := fun k =>
      match c.entries k with
      | none => none
      | some e => if e.expiresAt < now then none else some e }

/-! ## Model router (routing.go) -/

/-- `config.ModelRouteEntry`: one routing rule. -/
structure ModelRouteEntry where
  name : String
  fuzzy : Bool
  candidates : List String
  deriving DecidableEq, Repr

/-- `config.ModelRoutingConfig`.  The Go map `NativeProviderPriority
map[string][]string` is a function with `[]` for absent families (a nil map
behaves the same as an empty one in the code being modelled). -/
structure ModelRoutingConfig where
  enabled : Bool
  autoSearch : Bool
  routes : List ModelRouteEntry
  nativeProviderPriority : String → List String
  cacheFile : String

/-- `candidateInfo` from routing.go: a candidate model with its serving
providers and registry type. -/
structure candidateInfo where
  modelID : String
  providers : List String
  modelType : String
  deriving DecidableEq, Repr

/-- The model-registry collaborators of the router, specified at their
interface boundary: `registry.GetAvailableModels("")` (the identifiers, in
discovery order), `util.GetProviderName` and `registry.LookupModelInfo`
(`typeOf` is `""` when the lookup is nil, as in the source). -/
structure RegistryEnv where
  models : List String
  providersOf : String → List String
  typeOf : String → String

/-- `inferModelFamily` from routing.go: keyword containment checks. -/
def inferModelFamily (baseName : String) : String :=
  let lower := strLower baseName
  if strContains lower "claude" || strContains lower "sonnet" ||
      strContains lower "opus" || strContains lower "haiku" then "claude"
  else if strContains lower "gpt" || strContains lower "o1" ||
      strContains lower "o3" || strContains lower "codex" then "gpt"
  else if strContains lower "gemini" then "gemini"
  else if strContains lower "qwen" then "qwen"
  else ""

/-- The Go loop `for i, provider := range priorityList { priorityMap[provider] = i }`:
later entries overwrite earlier ones. -/
def buildPriorityMap (priorityList : List String) : String → Option Nat :=
  priorityList.enum.foldl
    (fun m ip => fun q => if q = ip.2 then some ip.1 else m q)
    (fun _ => none)

/-- `getBestProviderPriority` from routing.go: the lowest priority index
among the providers, `9999` when none is prioritized. -/
def getBestProviderPriority (providers : List String) (priorityMap : String → Option Nat) : Nat :=
  providers.foldl
    (fun best provider =>
      match priorityMap provider with
      | some priority => if priority < best then priority else best
      | none => best)
    9999

/-- The comparison handed to Go's `sort.SliceStable` in
`sortCandidatesByProviderPriority` (as the reflexive order underlying the
strict `<` comparison of the source). -/
def candLE (priorityMap : String → Option Nat) (a b : candidateInfo) : Prop :=
  getBestProviderPriority a.providers priorityMap ≤ getBestProviderPriority b.providers priorityMap

instance (pm : String → Option Nat) : DecidableRel (candLE pm) :=
  fun _ _ => Nat.decLe _ _

/-- The `sort.SliceStable` call of `sortCandidatesByProviderPriority`.
`sort.SliceStable` is specified as a stable sort, which insertion sort
realizes exactly. -/
def rankCandidates (priorityMap : String → Option Nat) (candidates : List candidateInfo) :
    List candidateInfo :=
  List.insertionSort (candLE priorityMap) candidates

/-- `sortCandidatesByProviderPriority` from routing.go: rank by the family's
configured provider priority; no priority list means the discovery order is
returned unchanged. -/
def sortCandidatesByProviderPriority (cfg : Option ModelRoutingConfig)
    (candidates : List candidateInfo) (baseName : String) : List String :=
  let family := inferModelFamily baseName
  let priorityList := match cfg with
    | some c => c.nativeProviderPriority family
    | none => []
  if priorityList = [] then candidates.map (·.modelID)
  else (rankCandidates (buildPriorityMap priorityList) candidates).map (·.modelID)

/-- The candidate-collection loop of `autoSearchModels`: keep registry
models whose lowercased id contains the base name, with at least one
provider, deduplicated by id (`seen`). -/
def collectCandidates (env : RegistryEnv) (lowerBase : String) :
    List String → List String → List candidateInfo
  | [], _ => []
  | id :: rest, seen =>
    if id ≠ "" ∧ strContains (strLower id) lowerBase then
      if env.providersOf id ≠ [] then
        if id ∈ seen then collectCandidates env lowerBase rest seen
        else
          { modelID := id, providers := env.providersOf id, modelType := env.typeOf id } ::
            collectCandidates env lowerBase rest (id :: seen)
      else collectCandidates env lowerBase rest seen
    else collectCandidates env lowerBase rest seen

/-- `autoSearchModels` from routing.go. -/
def autoSearchModels (cfg : Option ModelRoutingConfig) (env : RegistryEnv)
    (modelName : String) : List String :=
  let baseName := extractBaseModelName modelName
  if baseName = "" then []
  else
    let lowerBase := strLower baseName
    let candidatesInfo := collectCandidates env lowerBase env.models []
    if candidatesInfo = [] then []
    else sortCandidatesByProviderPriority cfg candidatesInfo baseName

/-- Modelled from the spec: the Route Success Cache (`RouteCache`, whose Go
definition is outside the provided sources) is a key-value store from
virtual model name to the last successful concrete model; `Get` returns
`""` for an absent key, as the call sites in routing.go expect. -/
structure RouteCache where
  data : String → String

/-- Modelled from the spec: success-cache lookup. -/
def RouteCache.get (c : RouteCache) (virtualModel : String) : String :=
  c.data virtualModel

/-- Modelled from the spec: success-cache write-through (`Set`). -/
def RouteCache.set (c : RouteCache) (virtualModel actualModel : String) : RouteCache :=
  { data := fun k => if k = virtualModel then actualModel else c.data k }

/-- `ModelRouter` from routing.go: configuration, success cache, and the
exact/fuzzy rule indexes built by `UpdateConfig`. -/
structure ModelRouter where
  cfg : Option ModelRoutingConfig
  cache : Option RouteCache
  routes : String → Option ModelRouteEntry
  fuzzy : List ModelRouteEntry

/-- `ModelRouter.IsEnabled` from routing.go. -/
def ModelRouter.isEnabled (r : ModelRouter) : Bool :=
  match r.cfg with
  | some c => c.enabled
  | none => false

/-- The index-building loop of `UpdateConfig`: skip rules with blank names,
append fuzzy rules in order, index exact rules by lowercased name
(last write wins). -/
def buildIndexes (routes : List ModelRouteEntry) :
    (String → Option ModelRouteEntry) × List ModelRouteEntry :=
  routes.foldl
    (fun acc entry =>
      let name := strTrim entry.name
      if name = "" then acc
      else if entry.fuzzy then (acc.1, acc.2 ++ [entry])
      else (fun k => if k = strLower name then some entry else acc.1 k, acc.2))
    (fun _ => none, [])

/-- `findRouteEntry` from routing.go: exact match on the lowercased name
first, then the first fuzzy rule whose lowercased name is contained in it. -/
def findRouteEntry (r : ModelRouter) (modelName : String) : Option ModelRouteEntry :=
  let lowerName := strLower modelName
  match r.routes lowerName with
  | some entry => some entry
  | none => r.fuzzy.find? (fun entry => strContains lowerName (strLower entry.name))

/-- `ModelRouter.GetCandidates` from routing.go. -/
def getCandidates (r : ModelRouter) (env : RegistryEnv) (modelName : String) : List String :=
  if ¬ r.isEnabled then []
  else
    let modelName := strTrim modelName
    if modelName = "" then []
    else
      match r.cache with
      | some cache =>
        let cached := cache.get modelName
        if cached ≠ "" then
          match findRouteEntry r modelName with
          | some entry => cached :: entry.candidates.filter (fun c => c ≠ cached)
          | none =>
            let autoResults := autoSearchModels r.cfg env modelName
            if autoResults ≠ [] then cached :: autoResults.filter (fun m => m ≠ cached)
            else [cached]
        else
          match findRouteEntry r modelName with
          | some entry => entry.candidates
          | none =>
            match r.cfg with
            | some c => if c.autoSearch then autoSearchModels r.cfg env modelName else []
            | none => []
      | none =>
        match findRouteEntry r modelName with
        | some entry => entry.candidates
        | none =>
          match r.cfg with
          | some c => if c.autoSearch then autoSearchModels r.cfg env modelName else []
          | none => []

/-- `ModelRouter.RecordSuccess` from routing.go: write through to the
success cache; a no-op when routing is disabled or the cache is absent. -/
def recordSuccess (r : ModelRouter) (virtualModel actualModel : String) : ModelRouter :=
  if ¬ r.isEnabled then r
  else
    match r.cache with
    | some cache => { r with cache := some (cache.set virtualModel actualModel) }
    | none => r

/-! ## Sample states shared by the witnesses -/

/-- A concrete quota state marked exceeded, for instantiating theorems. -/
def sampleQuota : QuotaState :=
  { total := 100, remaining := 5, resetAt := 0, nextRecoverAt := 0, exceeded := true,
    reason := "quota", backoffLevel := 2, updatedAt := 0, source := "api" }

/-- A concrete quota snapshot with positive remaining quota. -/
def sampleInfo : QuotaInfo :=
  { total := 100, remaining := 7, resetAt := 0, source := "api", fetchedAt := 3 }

/-- A concrete quota cache holding one entry that expires at time 5. -/
def sampleCache : QuotaCache :=
  { entries := fun k =>
      if k = "p:a:m" then some { info := QuotaInfo.empty, expiresAt := 5 } else none,
    ttl := 7 }

/-! ## Theorems for the claims -/

/-- Claim C1: `extractBaseModelName` strips the maximal run of trailing
date-like / version-like segments and behaves as the spec's examples say.
Three of the spec's four examples hold, but on
`"gpt-4-turbo-2024-04-09"` the code returns the input unchanged — the
hyphen-split date ends in the two-digit segments `"04"`, `"09"`, which
`isDateLikeSuffix` (lengths 4/6/8 only) rejects, so the backwards scan
stops immediately.  This contradicts the function's own doc comment
(`"gpt-4-turbo-2024-04-09" -> "gpt-4-turbo"`) and its comment listing
`-2024-04-09` as a date format to remove.  The last conjunct records a
second slip: the claimed "never reduces the name to empty" guard
(`cutIndex == 0`) misses names whose kept part is the empty segment. -/
theorem extractBaseModelName_examples :
    extractBaseModelName "claude-sonnet-20251124" = "claude-sonnet" ∧
    extractBaseModelName "plain-name" = "plain-name" ∧
    extractBaseModelName "v1" = "v1" ∧
    extractBaseModelName "gpt-4-turbo-2024-04-09" = "gpt-4-turbo-2024-04-09" ∧
    extractBaseModelName "-20251124" = "" := by
  decide

/-- Claim C4: a 429 with no Retry-After marks the state exceeded with a
recovery time strictly after `now`; `IsQuotaExhausted` then reports
exhausted with that time, and reports available one second past it. -/
theorem updateFrom429_exhaustion_transition (q : QuotaState) (now : Int) (hnow : 0 ≤ now) :
    ∃ s, UpdateQuotaFrom429 (some q) none now 0 = some s ∧
      s.exceeded = true ∧
      now < s.nextRecoverAt ∧
      IsQuotaExhausted (some s) now = (true, s.nextRecoverAt) ∧
      IsQuotaExhausted (some s) (s.nextRecoverAt + second) = (false, 0) := by
  refine ⟨updateQuotaFrom429Core q none now 0, rfl, ?_, ?_, ?_, ?_⟩
  · rfl
  · show now < (if (30 * minute) > 0 then now + 30 * minute else 0)
    rw [if_pos (by norm_num [minute, second])]
    norm_num [minute, second]
  · simp only [updateQuotaFrom429Core, nextQuotaCooldown, IsQuotaExhausted,
      isQuotaExhaustedCore]
    norm_num [minute, second]
    omega
  · simp only [updateQuotaFrom429Core, nextQuotaCooldown, IsQuotaExhausted,
      isQuotaExhaustedCore]
    norm_num [minute, second]
    omega

/-- Witness for C4 at the concrete state `sampleQuota` and time `0`. -/
theorem updateFrom429_exhaustion_transition_witness :
    (0 : Int) ≤ 0 ∧
    ∃ s, UpdateQuotaFrom429 (some sampleQuota) none 0 0 = some s ∧
      s.exceeded = true ∧
      (0 : Int) < s.nextRecoverAt ∧
      IsQuotaExhausted (some s) 0 = (true, s.nextRecoverAt) ∧
      IsQuotaExhausted (some s) (s.nextRecoverAt + second) = (false, 0) :=
  ⟨by decide, updateFrom429_exhaustion_transition sampleQuota 0 (by decide)⟩

/-- Claim C5: `ClearQuotaState` resets the state to the "available, unknown
magnitude" baseline and `IsQuotaExhausted` reports available at every
time afterwards. -/
theorem clearQuotaState_resets_to_available (q : QuotaState) (now : Int) :
    ClearQuotaState (some q) now =
      some { total := -1, remaining := -1, resetAt := 0, nextRecoverAt := 0,
             exceeded := false, reason := "", backoffLevel := 0, updatedAt := now,
             source := "" } ∧
    ∀ t : Int, IsQuotaExhausted (ClearQuotaState (some q) now) t = (false, 0) := by
  refine ⟨rfl, fun t => ?_⟩
  simp [ClearQuotaState, clearQuotaStateCore, IsQuotaExhausted, isQuotaExhaustedCore]

/-- Claim C9: `UpdateQuotaFromInfo` never lowers the exceeded flag, leaves
the backoff level alone, and touches reason / recovery time only when the
snapshot reports `remaining = 0` with `total > 0`; `UpdateQuotaFrom429`
also keeps the flag raised, and only `ClearQuotaState` lowers it. -/
theorem updateFromInfo_preserves_exceeded (q : QuotaState) (info : QuotaInfo)
    (hq : q.exceeded = true) :
    (∃ s, UpdateQuotaFromInfo (some q) info = some s ∧
      s.exceeded = true ∧
      s.backoffLevel = q.backoffLevel ∧
      (¬ (info.remaining = 0 ∧ info.total > 0) →
        s.reason = q.reason ∧ s.nextRecoverAt = q.nextRecoverAt)) ∧
    (∀ ra now lvl, ∃ s, UpdateQuotaFrom429 (some q) ra now lvl = some s ∧
      s.exceeded = true) ∧
    (∀ now, ∃ s, ClearQuotaState (some q) now = some s ∧ s.exceeded = false) := by
  refine ⟨⟨updateQuotaFromInfoCore q info, rfl, ?_, ?_, ?_⟩,
    fun ra now lvl => ⟨_, rfl, ?_⟩, fun now => ⟨_, rfl, rfl⟩⟩
  · simp only [updateQuotaFromInfoCore]
    split
    · split <;> simp
    · simpa using hq
  · simp only [updateQuotaFromInfoCore]
    split
    · split <;> simp
    · simp
  · intro hni
    simp [updateQuotaFromInfoCore, if_neg hni]
  · cases ra <;> simp [updateQuotaFrom429Core]

/-- Witness for C9 at `sampleQuota` (exceeded, backoff level 2) and
`sampleInfo` (remaining 7, so the frame conditions bite). -/
theorem updateFromInfo_preserves_exceeded_witness :
    sampleQuota.exceeded = true ∧
    ((∃ s, UpdateQuotaFromInfo (some sampleQuota) sampleInfo = some s ∧
      s.exceeded = true ∧
      s.backoffLevel = sampleQuota.backoffLevel ∧
      (¬ (sampleInfo.remaining = 0 ∧ sampleInfo.total > 0) →
        s.reason = sampleQuota.reason ∧ s.nextRecoverAt = sampleQuota.nextRecoverAt)) ∧
    (∀ ra now lvl, ∃ s, UpdateQuotaFrom429 (some sampleQuota) ra now lvl = some s ∧
      s.exceeded = true) ∧
    (∀ now, ∃ s, ClearQuotaState (some sampleQuota) now = some s ∧ s.exceeded = false)) :=
  ⟨by decide, updateFromInfo_preserves_exceeded sampleQuota sampleInfo (by decide)⟩

/-- Claim C10: every quota operation is total on a nil receiver/argument:
nil checks make them report "available" / a miss, or do nothing. -/
theorem quota_ops_total_on_nil :
    (∀ now, IsQuotaExhausted none now = (false, 0)) ∧
    (∀ info, UpdateQuotaFromInfo none info = none) ∧
    (∀ ra now lvl, UpdateQuotaFrom429 none ra now lvl = none) ∧
    (∀ now, ClearQuotaState none now = none) ∧
    (∀ p a m now, QuotaCache.Get none p a m now = (QuotaInfo.empty, false)) ∧
    (∀ p a m info now, QuotaCache.Set none p a m info now = none) ∧
    (∀ p a m, QuotaCache.Invalidate none p a m = none) ∧
    (∀ now, QuotaCache.Cleanup none now = none) :=
  ⟨fun _ => rfl, fun _ => rfl, fun _ _ _ => rfl, fun _ => rfl, fun _ _ _ _ => rfl,
   fun _ _ _ _ _ => rfl, fun _ _ _ => rfl, fun _ => rfl⟩

/-- Claim C7: the quota cache defaults a non-positive TTL to 5 minutes;
`Get` misses on absent keys and on expired entries while leaving the entry
in place; `Set` overwrites unconditionally with expiry `now + ttl` and
touches no other key; `Cleanup` removes exactly the expired entries. -/
theorem quotaCache_ttl_get_set_cleanup :
    (∀ ttl : Int, ttl ≤ 0 → (NewQuotaCache ttl).ttl = 5 * minute) ∧
    (∀ (c : QuotaCache) p a m now, c.entries (quotaCacheKey p a m) = none →
      QuotaCache.Get (some c) p a m now = (QuotaInfo.empty, false)) ∧
    (∀ (c : QuotaCache) p a m now e, c.entries (quotaCacheKey p a m) = some e →
      e.expiresAt < now →
      QuotaCache.Get (some c) p a m now = (QuotaInfo.empty, false) ∧
      c.entries (quotaCacheKey p a m) = some e) ∧
    (∀ (c : QuotaCache) p a m info now, ∃ c',
      QuotaCache.Set (some c) p a m info now = some c' ∧
      c'.entries (quotaCacheKey p a m) = some { info := info, expiresAt := now + c.ttl } ∧
      c'.ttl = c.ttl ∧
      ∀ k, k ≠ quotaCacheKey p a m → c'.entries k = c.entries k) ∧
    (∀ (c : QuotaCache) now, ∃ c',
      QuotaCache.Cleanup (some c) now = some c' ∧
      (∀ k e, c.entries k = some e → e.expiresAt < now → c'.entries k = none) ∧
      (∀ k e, c.entries k = some e → ¬ e.expiresAt < now → c'.entries k = some e) ∧
      (∀ k, c.entries k = none → c'.entries k = none)) := by
  refine ⟨?_, ?_, ?_, ?_, ?_⟩
  · intro ttl h; simp [NewQuotaCache, if_pos h]
  · intro c p a m now h; simp [QuotaCache.Get, h]
  · intro c p a m now e h hex
    refine ⟨?_, h⟩
    simp [QuotaCache.Get, h, if_pos hex]
  · intro c p a m info now
    refine ⟨_, rfl, ?_, rfl, ?_⟩
    · simp
    · intro k hk; simp [hk]
  · intro c now
    refine ⟨_, rfl, ?_, ?_, ?_⟩
    · intro k e h hex; simp [h, if_pos hex]
    · intro k e h hex; simp [h, if_neg hex]
    · intro k h; simp [h]

/-- Witness for C7: the default-TTL leg at `ttl = 0` and the
expired-entry miss leg on `sampleCache` read at time 10. -/
theorem quotaCache_ttl_get_set_cleanup_witness :
    ((0 : Int) ≤ 0 ∧ (NewQuotaCache 0).ttl = 5 * minute) ∧
    (sampleCache.entries (quotaCacheKey "p" "a" "m") =
        some { info := QuotaInfo.empty, expiresAt := 5 } ∧
      (5 : Int) < 10 ∧
      QuotaCache.Get (some sampleCache) "p" "a" "m" 10 = (QuotaInfo.empty, false) ∧
      sampleCache.entries (quotaCacheKey "p" "a" "m") =
        some { info := QuotaInfo.empty, expiresAt := 5 }) :=
  ⟨⟨by decide, quotaCache_ttl_get_set_cleanup.1 0 (by decide)⟩,
   by decide, by decide,
   quotaCache_ttl_get_set_cleanup.2.2.1 sampleCache "p" "a" "m" 10
     { info := QuotaInfo.empty, expiresAt := 5 } (by decide) (by decide)⟩

/-! ## Lowercasing lemmas -/

/-- `Char.ofNat` of a valid codepoint round-trips through `toNat`. -/
theorem toNat_ofNat_of_valid {n : Nat} (h : n.isValidChar) : (Char.ofNat n).toNat = n := by
  unfold Char.ofNat
  rw [dif_pos h]
  rfl

/-- ASCII lowercasing is idempotent at the character level. -/
theorem charLower_idem (c : Char) : charLower (charLower c) = charLower c := by
  unfold charLower
  by_cases h : 65 ≤ c.toNat ∧ c.toNat ≤ 90
  · rw [if_pos h]
    have hv : Nat.isValidChar (c.toNat + 32) := Or.inl (by omega)
    have ht : (Char.ofNat (c.toNat + 32)).toNat = c.toNat + 32 := toNat_ofNat_of_valid hv
    rw [if_neg (by rw [ht]; omega)]
  · rw [if_neg h, if_neg h]

/-- `strLower` is idempotent. -/
theorem strLower_idem (s : String) : strLower (strLower s) = strLower s := by
  unfold strLower
  apply congrArg String.mk
  rw [List.map_map]
  exact List.map_congr_left (fun a _ => charLower_idem a)

/-- Counterexample to claim C2 as stated: the spec's example
`match("claude-*", "claude") == true` fails on the code — the pattern's
first segment `claude-` must be a prefix of the text, and `"claude"` does
not start with `"claude-"`.  (Standard glob semantics agree with the code
here.) -/
theorem matchWildcard_claude_dash_counterexample :
    matchWildcard "claude-*" "claude" = false := by decide

/-- Claim C2 (amended): `matchWildcard` is case-insensitive with `*` as the
only special token, and the spec's examples hold except that
`match("claude-*", "claude")` is `false` (the text lacks the required
`claude-` prefix). -/
theorem matchWildcard_case_insensitive_and_examples :
    (∀ pattern text, matchWildcard pattern text =
        matchWildcard (strLower pattern) (strLower text)) ∧
    matchWildcard "*gpt-5*" "openai-gpt-5-codex" = true ∧
    matchWildcard "claude-*" "claude" = false ∧
    matchWildcard "a*b*c" "axxbyyc" = true ∧
    matchWildcard "a*b" "a" = false := by
  refine ⟨fun pattern text => ?_, by decide, by decide, by decide, by decide⟩
  conv_rhs => rw [matchWildcard]
  rw [strLower_idem, strLower_idem]
  rfl

/-! ## Sample routers shared by the router witnesses -/

/-- An enabled routing configuration with no rules and auto-search off. -/
def cfgSample : ModelRoutingConfig :=
  { enabled := true, autoSearch := false, routes := [],
    nativeProviderPriority := fun _ => [], cacheFile := "" }

/-- An empty success cache. -/
def routeCacheSample : RouteCache := { data := fun _ => "" }

/-- A success cache holding one entry for `gpt-x`. -/
def routeCacheHit : RouteCache :=
  { data := fun k => if k = "gpt-x" then "gpt-x-2024-08" else "" }

/-- An enabled router with an empty success cache and no rules. -/
def routerSample : ModelRouter :=
  { cfg := some cfgSample, cache := some routeCacheSample,
    routes := fun _ => none, fuzzy := [] }

/-- An enabled router whose success cache already maps `gpt-x`. -/
def routerHit : ModelRouter :=
  { cfg := some cfgSample, cache := some routeCacheHit,
    routes := fun _ => none, fuzzy := [] }

/-- An empty model registry. -/
def envSample : RegistryEnv :=
  { models := [], providersOf := fun _ => [], typeOf := fun _ => "" }

/-- No element of a list survives filtering by "differs from `a`" and still
counts as `a`. -/
theorem count_filter_ne_self (a : String) (l : List String) :
    (l.filter (fun c => !decide (c = a))).count a = 0 := by
  rw [List.count_eq_zero]
  intro hmem
  have := List.of_mem_filter hmem
  simp at this

/-- Counterexample to claim C3 as stated: with the empty virtual model name
`""`, `RecordSuccess` stores the entry but `GetCandidates` trims the name,
finds it empty and returns the empty list — not a list headed by the
recorded model. -/
theorem recordSuccess_empty_name_counterexample :
    getCandidates (recordSuccess routerSample "" "gpt-x-2024-08") envSample "" = [] := by
  decide

/-- Claim C3 (amended): for a router with routing enabled and an
initialized success cache, a virtual model name that is nonempty and
unchanged by trimming, and a nonempty recorded model, `GetCandidates`
after `RecordSuccess` returns a list headed by the recorded model in
which it appears exactly once — in the route-rule, auto-discovery and
singleton cases alike. -/
theorem recordSuccess_getCandidates_head (r : ModelRouter) (env : RegistryEnv)
    (v a : String) (c : RouteCache)
    (hen : r.isEnabled = true) (hcache : r.cache = some c)
    (hv : strTrim v = v) (hv' : v ≠ "") (ha : a ≠ "") :
    (getCandidates (recordSuccess r v a) env v).head? = some a ∧
    (getCandidates (recordSuccess r v a) env v).count a = 1 := by
  have hrs : recordSuccess r v a = { r with cache := some (c.set v a) } := by
    simp [recordSuccess, hen, hcache]
  have hen' : ModelRouter.isEnabled { r with cache := some (c.set v a) } = true := hen
  have hget : (c.set v a).get v = a := by simp [RouteCache.set, RouteCache.get]
  rw [hrs]
  simp only [getCandidates, hen', hv, hget, hv', ha, ne_eq, not_true_eq_false,
    not_false_eq_true, if_false, if_true, ite_not]
  cases hfind : findRouteEntry { r with cache := some (c.set v a) } v with
  | some entry =>
    simp only [hfind]
    exact ⟨rfl, by simp [List.count_cons, count_filter_ne_self]⟩
  | none =>
    simp only [hfind]
    by_cases hauto : autoSearchModels r.cfg env v = []
    · simp only [if_pos hauto]
      exact ⟨rfl, by simp⟩
    · simp only [if_neg hauto]
      exact ⟨rfl, by simp [List.count_cons, count_filter_ne_self]⟩

/-- Witness for the amended C3, recording the spec's own example
`RecordSuccess("gpt-x", "gpt-x-2024-08")` on a concrete enabled router. -/
theorem recordSuccess_getCandidates_head_witness :
    routerSample.isEnabled = true ∧
    routerSample.cache = some routeCacheSample ∧
    strTrim "gpt-x" = "gpt-x" ∧ "gpt-x" ≠ "" ∧ "gpt-x-2024-08" ≠ "" ∧
    ((getCandidates (recordSuccess routerSample "gpt-x" "gpt-x-2024-08")
        envSample "gpt-x").head? = some "gpt-x-2024-08" ∧
     (getCandidates (recordSuccess routerSample "gpt-x" "gpt-x-2024-08")
        envSample "gpt-x").count "gpt-x-2024-08" = 1) :=
  ⟨by decide, rfl, by decide, by decide, by decide,
   recordSuccess_getCandidates_head routerSample envSample "gpt-x" "gpt-x-2024-08"
     routeCacheSample (by decide) rfl (by decide) (by decide) (by decide)⟩

/-- Claim C8: with a success-cache hit and no matching rule,
`GetCandidates` appends deduplicated auto-discovery results after the
cached model whatever the auto-search flag says; with no cache hit and no
rule, auto-discovery runs only when the flag is on. -/
theorem getCandidates_cache_hit_auto_discovery :
    (∀ (r : ModelRouter) (env : RegistryEnv) (v a : String) (c : RouteCache),
      r.isEnabled = true → r.cache = some c →
      strTrim v = v → v ≠ "" → c.get v = a → a ≠ "" →
      findRouteEntry r v = none →
      getCandidates r env v =
        (if autoSearchModels r.cfg env v = [] then [a]
         else a :: (autoSearchModels r.cfg env v).filter (fun m => m ≠ a)) ∧
      ∀ (b : Bool) (cfgv : ModelRoutingConfig), r.cfg = some cfgv →
        getCandidates { r with cfg := some { cfgv with autoSearch := b } } env v =
          getCandidates r env v) ∧
    (∀ (r : ModelRouter) (env : RegistryEnv) (v : String) (cfgv : ModelRoutingConfig),
      r.isEnabled = true → strTrim v = v → v ≠ "" →
      (r.cache = none ∨ ∃ c, r.cache = some c ∧ c.get v = "") →
      findRouteEntry r v = none → r.cfg = some cfgv →
      getCandidates r env v =
        (if cfgv.autoSearch then autoSearchModels r.cfg env v else [])) := by
  constructor
  · intro r env v a c hen hcache hv hv' hcached ha hfind
    have hmain : getCandidates r env v =
        (if autoSearchModels r.cfg env v = [] then [a]
         else a :: (autoSearchModels r.cfg env v).filter (fun m => m ≠ a)) := by
      simp only [getCandidates, hen, hcache, hv, hcached, hv', ha, ne_eq, not_true_eq_false,
        not_false_eq_true, if_false, if_true, ite_not, hfind]
    refine ⟨hmain, fun b cfgv hcfg => ?_⟩
    have henc : ModelRouter.isEnabled
        { cfg := some { cfgv with autoSearch := b }, cache := some c,
          routes := r.routes, fuzzy := r.fuzzy } = true := by
      rw [ModelRouter.isEnabled] at hen ⊢
      rw [hcfg] at hen
      exact hen
    have hfind' : findRouteEntry
        { cfg := some { cfgv with autoSearch := b }, cache := some c,
          routes := r.routes, fuzzy := r.fuzzy } v = none := hfind
    have hauto : autoSearchModels (some { cfgv with autoSearch := b }) env v =
        autoSearchModels r.cfg env v := by
      rw [hcfg]
      rfl
    have h1 : getCandidates { r with cfg := some { cfgv with autoSearch := b } } env v =
        (if autoSearchModels r.cfg env v = [] then [a]
         else a :: (autoSearchModels r.cfg env v).filter (fun m => m ≠ a)) := by
      simp only [getCandidates, hcache, henc, hv, hcached, hv', ha, ne_eq, not_true_eq_false,
        not_false_eq_true, if_false, if_true, ite_not, hfind', hauto]
    rw [h1, hmain]
  · intro r env v cfgv hen hv hv' hmiss hfind hcfg
    rcases hmiss with hnone | ⟨c, hc, hget⟩
    · simp only [getCandidates, hen, hnone, hv, hv', hfind, hcfg, ne_eq, not_true_eq_false,
        not_false_eq_true, if_false, if_true, ite_not]
    · simp only [getCandidates, hen, hc, hget, hv, hv', hfind, hcfg, ne_eq, not_true_eq_false,
        not_false_eq_true, if_false, if_true, ite_not]

/-- Witness for C8: the cache-hit leg on `routerHit` (auto-search off, yet
evaluated through auto-discovery) and the cache-miss leg on `routerSample`
(auto-search off, so the result is empty). -/
theorem getCandidates_cache_hit_auto_discovery_witness :
    (routerHit.isEnabled = true ∧ routerHit.cache = some routeCacheHit ∧
      strTrim "gpt-x" = "gpt-x" ∧ "gpt-x" ≠ "" ∧
      routeCacheHit.get "gpt-x" = "gpt-x-2024-08" ∧ "gpt-x-2024-08" ≠ "" ∧
      findRouteEntry routerHit "gpt-x" = none ∧
      (getCandidates routerHit envSample "gpt-x" =
        (if autoSearchModels routerHit.cfg envSample "gpt-x" = [] then ["gpt-x-2024-08"]
         else "gpt-x-2024-08" ::
           (autoSearchModels routerHit.cfg envSample "gpt-x").filter
             (fun m => m ≠ "gpt-x-2024-08")) ∧
       ∀ (b : Bool) (cfgv : ModelRoutingConfig), routerHit.cfg = some cfgv →
         getCandidates { routerHit with cfg := some { cfgv with autoSearch := b } }
             envSample "gpt-x" =
           getCandidates routerHit envSample "gpt-x")) ∧
    (routerSample.isEnabled = true ∧ strTrim "gpt-x" = "gpt-x" ∧ "gpt-x" ≠ "" ∧
      (routerSample.cache = none ∨
        ∃ c, routerSample.cache = some c ∧ c.get "gpt-x" = "") ∧
      findRouteEntry routerSample "gpt-x" = none ∧ routerSample.cfg = some cfgSample ∧
      getCandidates routerSample envSample "gpt-x" =
        (if cfgSample.autoSearch then autoSearchModels routerSample.cfg envSample "gpt-x"
         else [])) :=
  ⟨⟨by decide, rfl, by decide, by decide, by decide, by decide, by decide,
    getCandidates_cache_hit_auto_discovery.1 routerHit envSample "gpt-x" "gpt-x-2024-08"
      routeCacheHit (by decide) rfl (by decide) (by decide) (by decide) (by decide)
      (by decide)⟩,
   ⟨by decide, by decide, by decide, Or.inr ⟨routeCacheSample, rfl, by decide⟩, by decide, rfl,
    getCandidates_cache_hit_auto_discovery.2 routerSample envSample "gpt-x" cfgSample
      (by decide) (by decide) (by decide) (Or.inr ⟨routeCacheSample, rfl, by decide⟩)
      (by decide) rfl⟩⟩

/-! ## Provider-priority ranking lemmas (claim C6)

`rankCandidates` is the `sort.SliceStable` call of
`sortCandidatesByProviderPriority`; the lemmas below capture that a stable
sort by the priority key puts strictly smaller keys strictly earlier and
keeps the relative order of equal keys. -/

instance (pm : String → Option Nat) : IsTotal candidateInfo (candLE pm) :=
  ⟨fun _ _ => Nat.le_total _ _⟩

instance (pm : String → Option Nat) : IsTrans candidateInfo (candLE pm) :=
  ⟨fun _ _ _ => Nat.le_trans⟩

theorem rankCandidates_lt_pos (pm : String → Option Nat) (l : List candidateInfo)
    {i j : Nat} {a b : candidateInfo}
    (hi : (rankCandidates pm l).get? i = some a)
    (hj : (rankCandidates pm l).get? j = some b)
    (hab : getBestProviderPriority a.providers pm < getBestProviderPriority b.providers pm) :
    i < j := by
  have hsorted : (rankCandidates pm l).Sorted (candLE pm) :=
    List.sorted_insertionSort (candLE pm) l
  rcases List.get?_eq_some.mp hi with ⟨hi', hga⟩
  rcases List.get?_eq_some.mp hj with ⟨hj', hgb⟩
  by_contra hij
  rcases Nat.lt_or_ge j i with hji | hji
  · have := hsorted.rel_get_of_lt (a := ⟨j, hj'⟩) (b := ⟨i, hi'⟩) hji
    rw [hga, hgb] at this
    exact absurd hab (Nat.not_lt.mpr this)
  · have heq : i = j := Nat.le_antisymm hji (Nat.not_lt.mp hij)
    subst heq
    rw [hga] at hgb
    subst hgb
    exact absurd hab (Nat.lt_irrefl _)

theorem rankCandidates_filter_key (pm : String → Option Nat) (l : List candidateInfo) (k : Nat) :
    (rankCandidates pm l).filter
        (fun c => getBestProviderPriority c.providers pm == k) =
      l.filter (fun c => getBestProviderPriority c.providers pm == k) := by
  have hpair : (l.filter (fun c => getBestProviderPriority c.providers pm == k)).Pairwise
      (candLE pm) := by
    apply List.pairwise_of_forall_mem_list
    intro a ha b hb
    have ha' := List.of_mem_filter ha
    have hb' := List.of_mem_filter hb
    rw [beq_iff_eq] at ha' hb'
    unfold candLE
    rw [ha', hb']
  have hsub : List.Sublist
      (l.filter (fun c => getBestProviderPriority c.providers pm == k))
      (rankCandidates pm l) :=
    List.sublist_insertionSort hpair (List.filter_sublist l)
  have hself : ((l.filter (fun c => getBestProviderPriority c.providers pm == k)).filter
      (fun c => getBestProviderPriority c.providers pm == k)) =
      l.filter (fun c => getBestProviderPriority c.providers pm == k) := by
    rw [List.filter_eq_self]
    intro a ha
    exact (List.mem_filter.mp ha).2
  have hsub2 : List.Sublist
      (l.filter (fun c => getBestProviderPriority c.providers pm == k))
      ((rankCandidates pm l).filter
        (fun c => getBestProviderPriority c.providers pm == k)) := by
    have h2 := hsub.filter (fun c => getBestProviderPriority c.providers pm == k)
    rwa [hself] at h2
  have hperm : List.Perm
      ((rankCandidates pm l).filter (fun c => getBestProviderPriority c.providers pm == k))
      (l.filter (fun c => getBestProviderPriority c.providers pm == k)) := by
    apply List.Perm.filter
    exact List.perm_insertionSort (candLE pm) l
  exact (hsub2.eq_of_length hperm.length_eq.symm).symm



theorem foldl_best_le (pm : String → Option Nat) :
    ∀ (l : List String) (acc : Nat),
      l.foldl (fun best provider =>
        match pm provider with
        | some priority => if priority < best then priority else best
        | none => best) acc ≤ acc := by
  intro l
  induction l with
  | nil => intro acc; exact Nat.le_refl _
  | cons q rest ih =>
    intro acc
    refine Nat.le_trans (ih _) ?_
    cases hq : pm q with
    | none => simp [hq]
    | some v =>
      simp only [hq]
      split <;> omega

theorem foldl_best_mem (pm : String → Option Nat) :
    ∀ (l : List String) (acc : Nat) (p : String) (v : Nat), p ∈ l → pm p = some v →
      l.foldl (fun best provider =>
        match pm provider with
        | some priority => if priority < best then priority else best
        | none => best) acc ≤ v := by
  intro l
  induction l with
  | nil => intro acc p v hp _; cases hp
  | cons q rest ih =>
    intro acc p v hp hv
    rcases List.mem_cons.mp hp with rfl | hp'
    · refine Nat.le_trans (foldl_best_le pm rest _) ?_
      simp only [hv]
      split <;> omega
    · exact ih _ p v hp' hv

theorem foldl_best_none (pm : String → Option Nat) :
    ∀ (l : List String) (acc : Nat), (∀ p ∈ l, pm p = none) →
      l.foldl (fun best provider =>
        match pm provider with
        | some priority => if priority < best then priority else best
        | none => best) acc = acc := by
  intro l
  induction l with
  | nil => intro acc _; rfl
  | cons q rest ih =>
    intro acc h
    have hq : pm q = none := h q (List.mem_cons_self q rest)
    simp only [List.foldl_cons, hq]
    exact ih acc (fun p hp => h p (List.mem_cons_of_mem q hp))

theorem getBest_le_of_mem (pm : String → Option Nat) {providers : List String}
    {p : String} {v : Nat} (hp : p ∈ providers) (hv : pm p = some v) :
    getBestProviderPriority providers pm ≤ v :=
  foldl_best_mem pm providers 9999 p v hp hv

theorem getBest_eq_of_none (pm : String → Option Nat) {providers : List String}
    (h : ∀ p ∈ providers, pm p = none) :
    getBestProviderPriority providers pm = 9999 :=
  foldl_best_none pm providers 9999 h

theorem buildPM_pair (p : String) :
    buildPriorityMap ["p2", "p1"] p =
      if p = "p1" then some 1 else if p = "p2" then some 0 else none := rfl



theorem pm_values (p : String) (v : Nat) (hv : buildPriorityMap ["p2", "p1"] p = some v) :
    v ≤ 1 := by
  rw [buildPM_pair] at hv
  split at hv
  · cases hv; omega
  · split at hv
    · cases hv; omega
    · cases hv




/-- Claim C6: with priority list `["p2", "p1"]` configured for the inferred
family, the ranking is the stable sort by best provider priority; a
candidate servable only by `p2` sorts strictly before one servable only by
`p1`; candidates with no prioritized provider sort after every prioritized
candidate and keep their relative discovery order; with no priority list
the discovery order is returned unchanged. -/
theorem sortCandidates_provider_priority :
    (∀ (cfgv : ModelRoutingConfig) (cands : List candidateInfo) (baseName : String),
      cfgv.nativeProviderPriority (inferModelFamily baseName) = ["p2", "p1"] →
      sortCandidatesByProviderPriority (some cfgv) cands baseName =
        (rankCandidates (buildPriorityMap ["p2", "p1"]) cands).map (·.modelID)) ∧
    (∀ (cands : List candidateInfo) (a b : candidateInfo) (i j : Nat),
      a.providers = ["p2"] → b.providers = ["p1"] →
      (rankCandidates (buildPriorityMap ["p2", "p1"]) cands).get? i = some a →
      (rankCandidates (buildPriorityMap ["p2", "p1"]) cands).get? j = some b →
      i < j) ∧
    (∀ (cands : List candidateInfo) (c d : candidateInfo) (i j : Nat),
      c.providers.any (fun p => p == "p2" || p == "p1") = true →
      d.providers.any (fun p => p == "p2" || p == "p1") = false →
      (rankCandidates (buildPriorityMap ["p2", "p1"]) cands).get? i = some c →
      (rankCandidates (buildPriorityMap ["p2", "p1"]) cands).get? j = some d →
      i < j) ∧
    (∀ (cands : List candidateInfo),
      (rankCandidates (buildPriorityMap ["p2", "p1"]) cands).filter
          (fun c => !(c.providers.any (fun p => p == "p2" || p == "p1"))) =
        cands.filter (fun c => !(c.providers.any (fun p => p == "p2" || p == "p1")))) ∧
    (∀ (cfgv : ModelRoutingConfig) (cands : List candidateInfo) (baseName : String),
      cfgv.nativeProviderPriority (inferModelFamily baseName) = [] →
      sortCandidatesByProviderPriority (some cfgv) cands baseName =
        cands.map (·.modelID)) := by
  refine ⟨?_, ?_, ?_, ?_, ?_⟩
  · intro cfgv cands baseName hfam
    simp [sortCandidatesByProviderPriority, hfam]
  · intro cands a b i j ha hb hi hj
    refine rankCandidates_lt_pos (buildPriorityMap ["p2", "p1"]) cands hi hj ?_
    rw [ha, hb]
    decide
  · intro cands c d i j hc hd hi hj
    refine rankCandidates_lt_pos (buildPriorityMap ["p2", "p1"]) cands hi hj ?_
    have hkd : getBestProviderPriority d.providers (buildPriorityMap ["p2", "p1"]) = 9999 := by
      apply getBest_eq_of_none
      intro p hp
      have hne : (p == "p2" || p == "p1") = false :=
        Bool.eq_false_iff.mpr (List.any_eq_false.mp hd p hp)
      rw [buildPM_pair]
      simp only [Bool.or_eq_false_iff, beq_eq_false_iff_ne, ne_eq] at hne
      rw [if_neg hne.2, if_neg hne.1]
    have hkc : getBestProviderPriority c.providers (buildPriorityMap ["p2", "p1"]) ≤ 1 := by
      rcases List.any_eq_true.mp hc with ⟨p, hp, hpv⟩
      rcases Bool.or_eq_true_iff.mp hpv with h2 | h1
      · have : buildPriorityMap ["p2", "p1"] p = some 0 := by
          rw [buildPM_pair, if_neg, if_pos (beq_iff_eq.mp h2)]
          rw [beq_iff_eq.mp h2]
          decide
        exact Nat.le_trans (getBest_le_of_mem _ hp this) (by omega)
      · have : buildPriorityMap ["p2", "p1"] p = some 1 := by
          rw [buildPM_pair, if_pos (beq_iff_eq.mp h1)]
        exact getBest_le_of_mem _ hp this
    omega
  · intro cands
    have hpoint : ∀ (x : candidateInfo),
        (!(x.providers.any (fun p => p == "p2" || p == "p1"))) =
          (getBestProviderPriority x.providers (buildPriorityMap ["p2", "p1"]) == 9999) := by
      intro x
      cases hx : x.providers.any (fun p => p == "p2" || p == "p1") with
      | true =>
        rcases List.any_eq_true.mp hx with ⟨p, hp, hpv⟩
        have hle : getBestProviderPriority x.providers (buildPriorityMap ["p2", "p1"]) ≤ 1 := by
          rcases Bool.or_eq_true_iff.mp hpv with h2 | h1
          · have h0 : buildPriorityMap ["p2", "p1"] p = some 0 := by
              rw [buildPM_pair, if_neg, if_pos (beq_iff_eq.mp h2)]
              rw [beq_iff_eq.mp h2]
              decide
            exact Nat.le_trans (getBest_le_of_mem _ hp h0) (by omega)
          · have h1' : buildPriorityMap ["p2", "p1"] p = some 1 := by
              rw [buildPM_pair, if_pos (beq_iff_eq.mp h1)]
            exact getBest_le_of_mem _ hp h1'
        simp only [Bool.not_true]
        symm
        rw [beq_eq_false_iff_ne]
        omega
      | false =>
        have h9 : getBestProviderPriority x.providers (buildPriorityMap ["p2", "p1"]) = 9999 := by
          apply getBest_eq_of_none
          intro p hp
          have hne : (p == "p2" || p == "p1") = false :=
            Bool.eq_false_iff.mpr (List.any_eq_false.mp hx p hp)
          rw [buildPM_pair]
          simp only [Bool.or_eq_false_iff, beq_eq_false_iff_ne, ne_eq] at hne
          rw [if_neg hne.2, if_neg hne.1]
        rw [h9]
        simp
    rw [List.filter_congr (fun x _ => hpoint x), List.filter_congr (fun x _ => hpoint x),
      rankCandidates_filter_key]
  · intro cfgv cands baseName hfam
    simp [sortCandidatesByProviderPriority, hfam]


/-- Candidate servable only by `p2`, for the C6 witness. -/
def candP2 : candidateInfo := { modelID := "m-p2", providers := ["p2"], modelType := "" }

/-- Candidate servable only by `p1`, for the C6 witness. -/
def candP1 : candidateInfo := { modelID := "m-p1", providers := ["p1"], modelType := "" }

/-- Candidate with an unprioritized provider, for the C6 witness. -/
def candU1 : candidateInfo := { modelID := "u1", providers := ["x"], modelType := "" }

/-- Candidate with no providers in any priority list, for the C6 witness. -/
def candU2 : candidateInfo := { modelID := "u2", providers := [], modelType := "" }

/-- A discovery order placing the prioritized candidates last. -/
def candsSample : List candidateInfo := [candU1, candP1, candU2, candP2]

/-- A configuration giving family `gpt` the priority list `["p2", "p1"]`. -/
def cfgPriority : ModelRoutingConfig :=
  { enabled := true, autoSearch := true, routes := [],
    nativeProviderPriority := fun f => if f = "gpt" then ["p2", "p1"] else [],
    cacheFile := "" }

/-- Witness for C6 on a concrete discovery list `[u1, p1, u2, p2]` with
priority list `["p2", "p1"]` for the family inferred from `gpt-x`. -/
theorem sortCandidates_provider_priority_witness :
    (cfgPriority.nativeProviderPriority (inferModelFamily "gpt-x") = ["p2", "p1"] ∧
      sortCandidatesByProviderPriority (some cfgPriority) candsSample "gpt-x" =
        (rankCandidates (buildPriorityMap ["p2", "p1"]) candsSample).map (·.modelID)) ∧
    (candP2.providers = ["p2"] ∧ candP1.providers = ["p1"] ∧
      (rankCandidates (buildPriorityMap ["p2", "p1"]) candsSample).get? 0 = some candP2 ∧
      (rankCandidates (buildPriorityMap ["p2", "p1"]) candsSample).get? 1 = some candP1 ∧
      (0 : Nat) < 1) ∧
    ((rankCandidates (buildPriorityMap ["p2", "p1"]) candsSample).filter
        (fun c => !(c.providers.any (fun p => p == "p2" || p == "p1"))) =
      candsSample.filter (fun c => !(c.providers.any (fun p => p == "p2" || p == "p1")))) :=
  ⟨⟨by decide, sortCandidates_provider_priority.1 cfgPriority candsSample "gpt-x" (by decide)⟩,
   ⟨by decide, by decide, by decide, by decide,
    sortCandidates_provider_priority.2.1 candsSample candP2 candP1 0 1
      (by decide) (by decide) (by decide) (by decide)⟩,
   sortCandidates_provider_priority.2.2.2.1 candsSample⟩

end CLIProxy
